import Mathlib

/-!
Verification of the pydantic v2 CloudEvent representation
(cloudevents/pydantic/v2/event.py) against its specification.

The Python class is shallowly embedded as follows.

* Python attribute values are modelled by the inductive type `Value`
  (null, booleans, integers, strings, byte strings, datetimes).
  A `datetime` object is modelled by its RFC3339 / isoformat text,
  since the event code only ever renders datetimes to that text.
* The object state is modelled as the two stores a pydantic v2
  instance keeps: the instance dictionary (`self.__dict__`), which
  holds exactly the declared field values and is all that the source
  method `_get_attributes` iterates, and `__pydantic_extra__`, which
  holds the extension attributes admitted by the `extra="allow"`
  configuration and is where pydantic attribute assignment routes
  every non-field name. Both are association lists with python-dict
  semantics: unique keys, assignment replaces in place, deletion
  removes the key.
* The pluggable default-generation hooks
  (`attribute.default_id_selection_algorithm`,
  `attribute.default_time_selection_algorithm`) are injected as an
  explicit `Hooks` record, following the design note of the spec.
* Fallible construction returns `Except CEError Event`; the distinct
  Python exception classes are distinct `CEError` constructors.
-/

/-- A Python value as far as the event model needs it: `none`, `bool`,
`int`, `str`, `bytes` (a list of naturals below 256) and `datetime`
(modelled by its isoformat text). -/
inductive Value where
  | null : Value
  | vbool : Bool → Value
  | vint : Int → Value
  | vstr : String → Value
  | vbytes : List Nat → Value
  | vtime : String → Value
deriving DecidableEq, Repr

/-- Python dict lookup on an association list. -/
def dictLookup {α : Type} (d : List (String × α)) (k : String) : Option α :=
  match d with
  | [] => none
  | kv :: rest => if kv.1 = k then some kv.2 else dictLookup rest k

/-- Python dict assignment `d[k] = v`: replaces the value in place when
the key is present, otherwise appends the new binding at the end. -/
def dictSet {α : Type} (d : List (String × α)) (k : String) (v : α) :
    List (String × α) :=
  match d with
  | [] => [(k, v)]
  | kv :: rest => if kv.1 = k then (k, v) :: rest else kv :: dictSet rest k v

/-- Python dict deletion `del d[k]` (on unique-keyed dicts this removes
the one binding of `k`; on the model it removes every binding of `k`). -/
def dictErase {α : Type} (d : List (String × α)) (k : String) :
    List (String × α) :=
  d.filter (fun kv => kv.1 ≠ k)

/-- Builds a Python dict from a list of bindings, later bindings
overriding earlier ones, as a dict comprehension does. -/
def dictOf {α : Type} (l : List (String × α)) : List (String × α) :=
  l.foldl (fun d kv => dictSet d kv.1 kv.2) []

/-- ASCII lowercasing of one character, modelling `str.lower` on the
attribute names the event code handles. -/
def lowerChar (c : Char) : Char :=
  match c with
  | 'A' => 'a' | 'B' => 'b' | 'C' => 'c' | 'D' => 'd' | 'E' => 'e' | 'F' => 'f'
  | 'G' => 'g' | 'H' => 'h' | 'I' => 'i' | 'J' => 'j' | 'K' => 'k' | 'L' => 'l'
  | 'M' => 'm' | 'N' => 'n' | 'O' => 'o' | 'P' => 'p' | 'Q' => 'q' | 'R' => 'r'
  | 'S' => 's' | 'T' => 't' | 'U' => 'u' | 'V' => 'v' | 'W' => 'w' | 'X' => 'x'
  | 'Y' => 'y' | 'Z' => 'z' | c => c

/-- `str.lower` on a whole string. -/
def strLower (s : String) : String :=
  String.mk (s.data.map lowerChar)

theorem lowerChar_cases (c : Char) :
    lowerChar c = c ∨ lowerChar c ∈
      ['a','b','c','d','e','f','g','h','i','j','k','l','m',
       'n','o','p','q','r','s','t','u','v','w','x','y','z'] := by
  unfold lowerChar
  split
  all_goals first | (right; decide) | (left; rfl)

theorem lowerChar_idem (c : Char) : lowerChar (lowerChar c) = lowerChar c := by
  rcases lowerChar_cases c with h | h
  · rw [h, h]
  · simp only [List.mem_cons, List.not_mem_nil, or_false] at h
    rcases h with h|h|h|h|h|h|h|h|h|h|h|h|h|h|h|h|h|h|h|h|h|h|h|h|h|h <;>
      rw [h] <;> decide

theorem strLower_idem (s : String) : strLower (strLower s) = strLower s := by
  unfold strLower
  cases s with
  | mk data =>
    show String.mk ((data.map lowerChar).map lowerChar) = String.mk (data.map lowerChar)
    rw [List.map_map]
    exact congrArg String.mk (List.map_congr_left (fun c _ => lowerChar_idem c))

/-! ### Base64, modelling the python `base64` module on well-formed input -/

/-- The standard base64 alphabet. -/
def b64Alphabet : List Char :=
  "ABCDEFGHIJKLMNOPQRSTUVWXYZabcdefghijklmnopqrstuvwxyz0123456789+/".toList

/-- The base64 character of a six-bit group. -/
def sixToChar (n : Nat) : Char := b64Alphabet.getD n '='

/-- The six-bit value of a base64 character, if any. -/
def charToSix (c : Char) : Option Nat := b64Alphabet.findIdx? (fun a => a = c)

/-- `base64.b64encode` on a byte string (bytes as naturals below 256). -/
def b64encode : List Nat → List Char
  | [] => []
  | [a] => [sixToChar (a / 4), sixToChar (a % 4 * 16), '=', '=']
  | [a, b] =>
    [sixToChar (a / 4), sixToChar (a % 4 * 16 + b / 16), sixToChar (b % 16 * 4), '=']
  | a :: b :: c :: rest =>
    sixToChar (a / 4) :: sixToChar (a % 4 * 16 + b / 16) ::
      sixToChar (b % 16 * 4 + c / 64) :: sixToChar (c % 64) :: b64encode rest

/-- `base64.b64decode` on well-formed input: groups of four base64
characters, with padding allowed in the final group only. -/
def b64decode : List Char → Option (List Nat)
  | [] => some []
  | c1 :: c2 :: c3 :: c4 :: rest =>
    if c3 = '=' ∧ c4 = '=' ∧ rest = [] then
      match charToSix c1, charToSix c2 with
      | some v1, some v2 => some [v1 * 4 + v2 / 16]
      | _, _ => none
    else if c4 = '=' ∧ rest = [] then
      match charToSix c1, charToSix c2, charToSix c3 with
      | some v1, some v2, some v3 =>
        some [v1 * 4 + v2 / 16, v2 % 16 * 16 + v3 / 4]
      | _, _, _ => none
    else
      match charToSix c1, charToSix c2, charToSix c3, charToSix c4,
          b64decode rest with
      | some v1, some v2, some v3, some v4, some tl =>
        some ((v1 * 4 + v2 / 16) :: (v2 % 16 * 16 + v3 / 4) ::
          (v3 % 4 * 64 + v4) :: tl)
      | _, _, _, _, _ => none
  | _ => none

theorem charToSix_sixToChar : ∀ v, v < 64 → charToSix (sixToChar v) = some v := by
  decide

theorem sixToChar_ne_pad : ∀ v, v < 64 → sixToChar v ≠ '=' := by
  decide

theorem b64_roundtrip (bs : List Nat) (h : ∀ x ∈ bs, x < 256) :
    b64decode (b64encode bs) = some bs := by
  induction bs using b64encode.induct with
  | case1 => rfl
  | case2 a =>
    have ha : a < 256 := h a (by simp)
    simp only [b64encode, b64decode]
    rw [if_pos (by simp)]
    rw [charToSix_sixToChar _ (by omega), charToSix_sixToChar _ (by omega)]
    simp only [Option.some.injEq]
    congr 1
    omega
  | case3 a b =>
    have ha : a < 256 := h a (by simp)
    have hb : b < 256 := h b (by simp)
    simp only [b64encode, b64decode]
    rw [if_neg (by
      intro hcon
      exact sixToChar_ne_pad (b % 16 * 4) (by omega) hcon.1)]
    rw [if_pos (by simp)]
    rw [charToSix_sixToChar _ (by omega), charToSix_sixToChar _ (by omega),
      charToSix_sixToChar _ (by omega)]
    simp only [Option.some.injEq]
    congr 1
    · omega
    congr 1
    omega
  | case4 a b c rest ih =>
    have ha : a < 256 := h a (by simp)
    have hb : b < 256 := h b (by simp)
    have hc : c < 256 := h c (by simp)
    simp only [b64encode, b64decode]
    rw [if_neg (by
      intro hcon
      exact sixToChar_ne_pad (b % 16 * 4 + c / 64) (by omega) hcon.1)]
    rw [if_neg (by
      intro hcon
      exact sixToChar_ne_pad (c % 64) (by omega) hcon.1)]
    rw [charToSix_sixToChar _ (by omega), charToSix_sixToChar _ (by omega),
      charToSix_sixToChar _ (by omega), charToSix_sixToChar _ (by omega),
      ih (fun x hx => h x (by simp [hx]))]
    simp only [Option.some.injEq]
    congr 1
    · omega
    congr 1
    · omega
    congr 1
    omega

/-! ### The event entity -/

/-- Modelled from the spec: the fixed default `specversion` constant
(`attribute.DEFAULT_SPECVERSION` of `cloudevents.sdk.event.attribute`,
not under src); the spec fixes the resulting value to the string 1.0. -/
def DEFAULT_SPECVERSION : String := "1.0"

/-- Modelled from the spec: the pluggable default-id and default-time
selection algorithms (`cloudevents.sdk.event.attribute`, not under src),
injected as the values they return at construction time, following the
strategy-object design note of the spec. -/
structure Hooks where
  genId : String
  genTime : String
deriving DecidableEq, Repr

/-- A validation failure raised inside the pydantic model validation. -/
inductive VErr where
  | missingRequired : List String → VErr
  | b64Error : VErr
deriving DecidableEq, Repr

/-- An error surfaced by event construction. The constructors stand for
the distinct Python exception classes that can escape `__init__`:
`IncompatibleArgumentsError`, the `TypeError` for a duplicate `data`
keyword, and pydantic validation errors. -/
inductive CEError where
  | incompatibleArguments : CEError
  | duplicateDataKeyword : CEError
  | validation : VErr → CEError
deriving DecidableEq, Repr

/-- The event entity, as a pydantic v2 instance stores it: `dict` is
the instance dictionary `self.__dict__`, holding exactly the declared
pydantic fields, and `extra` is `__pydantic_extra__`, holding the
extension attributes kept under the `extra="allow"` configuration. -/
structure CloudEvent where
  dict : List (String × Value)
  extra : List (String × Value)
deriving DecidableEq, Repr

/-- The declared pydantic field names, in declaration order. -/
def pydanticFields : List String :=
  ["data", "source", "id", "type", "specversion", "time", "subject",
   "datacontenttype", "dataschema"]

namespace CloudEvent

/-- The `mode=before` model validator `check_base64_data_input`: when the
raw input mapping holds a non-null `data_base64` entry, its base64
decoding is assigned to `data` and the `data_base64` entry is deleted. -/
def check_base64_data_input (input : List (String × Value)) :
    Except VErr (List (String × Value)) :=
  match dictLookup input "data_base64" with
  | none => Except.ok input
  | some Value.null => Except.ok input
  | some (Value.vstr s) =>
    match b64decode s.data with
    | some bs =>
      Except.ok (dictErase (dictSet input "data" (Value.vbytes bs)) "data_base64")
    | none => Except.error VErr.b64Error
  | some (Value.vbytes cs) =>
    match b64decode (cs.map Char.ofNat) with
    | some bs =>
      Except.ok (dictErase (dictSet input "data" (Value.vbytes bs)) "data_base64")
    | none => Except.error VErr.b64Error
  | some _ => Except.error VErr.b64Error

/-- The value of a declared field: the input value when the key is
present, the declared default otherwise. -/
def fieldOr (input : List (String × Value)) (k : String) (dflt : Value) :
    Value :=
  (dictLookup input k).getD dflt

/-- The pydantic validation of the raw input mapping: runs the before
validator, then checks the required fields and fills in the declared
defaults (`id` and `time` from the injected default-selection
algorithms, `specversion` from the default constant); the declared
fields make up the instance dictionary and every unknown key is kept
as an extension attribute in the extra store. -/
def modelValidate (gen : Hooks) (input0 : List (String × Value)) :
    Except VErr CloudEvent :=
  match check_base64_data_input input0 with
  | Except.error e => Except.error e
  | Except.ok input =>
    let missing :=
      (if (dictLookup input "source").isNone then ["source"] else []) ++
      (if (dictLookup input "type").isNone then ["type"] else [])
    if missing = [] then
      Except.ok ⟨
        [("data", fieldOr input "data" Value.null),
         ("source", fieldOr input "source" Value.null),
         ("id", fieldOr input "id" (Value.vstr gen.genId)),
         ("type", fieldOr input "type" Value.null),
         ("specversion", fieldOr input "specversion" (Value.vstr DEFAULT_SPECVERSION)),
         ("time", fieldOr input "time" (Value.vtime gen.genTime)),
         ("subject", fieldOr input "subject" Value.null),
         ("datacontenttype", fieldOr input "datacontenttype" Value.null),
         ("dataschema", fieldOr input "dataschema" Value.null)],
        input.filter (fun kv => kv.1 ∉ pydanticFields)⟩
    else Except.error (VErr.missingRequired missing)

/-- Python truthiness of the optional attributes argument: `None` and
the empty dict are falsy. -/
def pyTruthy (o : Option (List (String × Value))) : Bool :=
  match o with
  | none => false
  | some l => !l.isEmpty

/-- `CloudEvent.__init__`: when a truthy attribute mapping is given,
kwargs must be empty or `IncompatibleArgumentsError` is raised, and the
mapping keys are lowercased; otherwise the kwargs are the attributes.
The merged mapping plus the `data` argument is validated by pydantic.
A `data` key inside the merged mapping collides with the `data` keyword
of the inner constructor call (a `TypeError` in Python). -/
def init (gen : Hooks) (attributes : Option (List (String × Value)))
    (data : Value) (kwargs : List (String × Value)) :
    Except CEError CloudEvent :=
  match (if pyTruthy attributes then
          if kwargs.length ≠ 0 then
            Except.error CEError.incompatibleArguments
          else
            Except.ok (dictOf ((attributes.getD []).map
              (fun kv => (strLower kv.1, kv.2))))
        else Except.ok kwargs : Except CEError (List (String × Value))) with
  | Except.error e => Except.error e
  | Except.ok merged =>
    if (dictLookup merged "data").isSome then
      Except.error CEError.duplicateDataKeyword
    else
      match modelValidate gen (("data", data) :: merged) with
      | Except.ok e => Except.ok e
      | Except.error ve => Except.error (CEError.validation ve)

/-- `get_data`: returns the stored payload unchanged. -/
def get_data (e : CloudEvent) : Value :=
  (dictLookup e.dict "data").getD Value.null

end CloudEvent

/-- Modelled from the spec: `conversion.best_effort_encode_attribute_value`
(the `cloudevents.conversion` module is not under src). Per the spec it
converts a value to its wire-safe scalar form: timestamps render to
their RFC3339 text and JSON-friendly scalars (strings, booleans,
numbers, null, binary) pass through. -/
def best_effort_encode_attribute_value (v : Value) : Value :=
  match v with
  | Value.vtime s => Value.vstr s
  | v => v

namespace CloudEvent

/-- `_get_attributes`: the attribute map read from the instance
dictionary (`self.__dict__.items()`, so the declared fields only - the
extra store never contributes), filtering the keys of the literal list
written in the source (`data` and `base64_data`) and passing every
value through the value-encoding codec. -/
def get_attributes (e : CloudEvent) : List (String × Value) :=
  (e.dict.filter
    (fun kv => kv.1 ∉ (["data", "base64_data"] : List String))).map
    (fun kv => (kv.1, best_effort_encode_attribute_value kv.2))

/-- `__setitem__`: any key except `data` is assigned via `setattr`;
`data` is silently ignored. The pydantic `__setattr__` routes a
declared field name into the instance dictionary and any other name
into the extra store. -/
def setItem (e : CloudEvent) (key : String) (value : Value) : CloudEvent :=
  if key ≠ "data" then
    if key ∈ pydanticFields then ⟨dictSet e.dict key value, e.extra⟩
    else ⟨e.dict, dictSet e.extra key value⟩
  else e

/-- `__delitem__`: `data` raises `KeyError`; any other key goes to
`delattr`, which in pydantic v2 removes a stored field from the
instance dictionary, a stored extension from the extra store, and
raises the not-found condition (`AttributeError`) otherwise. `none`
models the raising outcomes. -/
def delItem (e : CloudEvent) (key : String) : Option CloudEvent :=
  if key = "data" then none
  else if (dictLookup e.dict key).isSome then
    some ⟨dictErase e.dict key, e.extra⟩
  else if (dictLookup e.extra key).isSome then
    some ⟨e.dict, dictErase e.extra key⟩
  else none

end CloudEvent

/-! ### JSON text: the canonical renderer and the loads parser -/

/-- A JSON scalar, the value universe of the structured-mode envelope. -/
inductive JScalar where
  | null : JScalar
  | jbool : Bool → JScalar
  | jnum : Int → JScalar
  | jstr : String → JScalar
deriving DecidableEq, Repr

/-- The character of a decimal digit. -/
def digitChar (d : Nat) : Char :=
  match d with
  | 0 => '0' | 1 => '1' | 2 => '2' | 3 => '3' | 4 => '4'
  | 5 => '5' | 6 => '6' | 7 => '7' | 8 => '8' | _ => '9'

/-- The decimal digit of a character, if any. -/
def charDigit? (c : Char) : Option Nat :=
  if 48 ≤ c.toNat ∧ c.toNat ≤ 57 then some (c.toNat - 48) else none

/-- The character of a hex digit (lowercase). -/
def hexChar (d : Nat) : Char :=
  match d with
  | 0 => '0' | 1 => '1' | 2 => '2' | 3 => '3' | 4 => '4'
  | 5 => '5' | 6 => '6' | 7 => '7' | 8 => '8' | 9 => '9'
  | 10 => 'a' | 11 => 'b' | 12 => 'c' | 13 => 'd' | 14 => 'e' | _ => 'f'

/-- The hex value of a character, if any: a decimal digit or a letter
from either hex alphabet. -/
def hexVal (c : Char) : Option Nat :=
  if 48 ≤ c.toNat ∧ c.toNat ≤ 57 then some (c.toNat - 48)
  else if 97 ≤ c.toNat ∧ c.toNat ≤ 102 then some (c.toNat - 87)
  else if 65 ≤ c.toNat ∧ c.toNat ≤ 70 then some (c.toNat - 55)
  else none

/-- The decimal digits of a natural number, most significant first. -/
def digitsBE (n : Nat) : List Nat := (Nat.digits 10 n).reverse

/-- The decimal text of a natural number. -/
def natChars (n : Nat) : List Char :=
  if n = 0 then ['0'] else (digitsBE n).map digitChar

/-- The JSON text of an integer. -/
def renderInt (i : Int) : List Char :=
  if i < 0 then '-' :: natChars i.natAbs else natChars i.toNat

/-- The JSON escaping of one character inside a string literal: quote
and backslash get a two-character escape, control characters get a
`\u00XX` escape, and everything else stands for itself. -/
def escChar (c : Char) : List Char :=
  if c = '"' then ['\\', '"']
  else if c = '\\' then ['\\', '\\']
  else if c.toNat < 32 then
    ['\\', 'u', '0', '0', hexChar (c.toNat / 16), hexChar (c.toNat % 16)]
  else [c]

/-- The JSON escaping of a character sequence. -/
def escString (l : List Char) : List Char :=
  l.foldr (fun c acc => escChar c ++ acc) []

/-- The JSON text of a string literal. -/
def renderStr (s : String) : List Char :=
  '"' :: (escString s.data ++ ['"'])

/-- The JSON text of a scalar. -/
def renderScalar : JScalar → List Char
  | JScalar.null => ['n', 'u', 'l', 'l']
  | JScalar.jbool true => ['t', 'r', 'u', 'e']
  | JScalar.jbool false => ['f', 'a', 'l', 's', 'e']
  | JScalar.jnum i => renderInt i
  | JScalar.jstr s => renderStr s

/-- Decodes one escape sequence (the part after the backslash),
returning the denoted character and the remaining input. -/
def escDecode : List Char → Option (Char × List Char)
  | '"' :: r => some ('"', r)
  | '\\' :: r => some ('\\', r)
  | '/' :: r => some ('/', r)
  | 'n' :: r => some ('\n', r)
  | 't' :: r => some ('\t', r)
  | 'r' :: r => some ('\r', r)
  | 'b' :: r => some (Char.ofNat 8, r)
  | 'f' :: r => some (Char.ofNat 12, r)
  | 'u' :: h1 :: h2 :: h3 :: h4 :: r =>
    match hexVal h1, hexVal h2, hexVal h3, hexVal h4 with
    | some a, some b, some c, some d =>
      some (Char.ofNat (((a * 16 + b) * 16 + c) * 16 + d), r)
    | _, _, _, _ => none
  | _ => none

/-- Reads the body of a JSON string literal up to its closing quote,
undoing the escapes. The fuel argument bounds the number of decoded
characters; callers pass the input length, which always suffices since
every decoded character consumes at least one input character. -/
def parseStrLoop : Nat → List Char → Option (List Char × List Char)
  | 0, _ => none
  | Nat.succ fuel, cs =>
    match cs with
    | [] => none
    | c :: rest =>
      if c = '"' then some ([], rest)
      else if c = '\\' then
        match escDecode rest with
        | some er =>
          (parseStrLoop fuel er.2).map (fun p => (er.1 :: p.1, p.2))
        | none => none
      else (parseStrLoop fuel rest).map (fun p => (c :: p.1, p.2))

/-- Reads a maximal run of decimal digits. -/
def takeDigits : List Char → (List Nat × List Char)
  | [] => ([], [])
  | c :: rest =>
    match charDigit? c with
    | some d =>
      match takeDigits rest with
      | (ds, r) => (d :: ds, r)
    | none => ([], c :: rest)

/-- The number denoted by a digit run, most significant digit first. -/
def valueOf (ds : List Nat) : Nat :=
  ds.foldl (fun a d => a * 10 + d) 0

/-- Reads a fixed literal continuation, yielding the given scalar. -/
def parseLit (lit : List Char) (v : JScalar) (cs : List Char) :
    Option (JScalar × List Char) :=
  if lit.isPrefixOf cs then some (v, cs.drop lit.length) else none

/-- Reads the digits of a negative number (after the minus sign). -/
def parseNegNum (cs : List Char) : Option (JScalar × List Char) :=
  if (takeDigits cs).1 = [] then none
  else
    some (JScalar.jnum (-(Int.ofNat (valueOf (takeDigits cs).1))),
      (takeDigits cs).2)

/-- Reads the remaining digits of a number that began with digit `d`. -/
def parseNumFrom (d : Nat) (cs : List Char) : Option (JScalar × List Char) :=
  some (JScalar.jnum (Int.ofNat (valueOf (d :: (takeDigits cs).1))),
    (takeDigits cs).2)

/-- Reads one JSON scalar. -/
def parseScalar (cs : List Char) : Option (JScalar × List Char) :=
  match cs with
  | [] => none
  | c :: rest =>
    if c = 'n' then parseLit ['u', 'l', 'l'] JScalar.null rest
    else if c = 't' then parseLit ['r', 'u', 'e'] (JScalar.jbool true) rest
    else if c = 'f' then parseLit ['a', 'l', 's', 'e'] (JScalar.jbool false) rest
    else if c = '"' then
      match parseStrLoop rest.length rest with
      | some p => some (JScalar.jstr (String.mk p.1), p.2)
      | none => none
    else if c = '-' then parseNegNum rest
    else
      match charDigit? c with
      | some d => parseNumFrom d rest
      | none => none

/-- The continuation after a rendered number must not begin with a
digit, so that the maximal digit run is the rendered one. -/
def notDigitStart (cs : List Char) : Prop :=
  match cs with
  | [] => True
  | c :: _ => charDigit? c = none

theorem hexVal_hexChar : ∀ v, v < 16 → hexVal (hexChar v) = some v := by
  decide

theorem charDigit?_digitChar : ∀ d, d < 10 → charDigit? (digitChar d) = some d := by
  decide

theorem digitChar_not_key : ∀ d, d < 10 →
    digitChar d ≠ 'n' ∧ digitChar d ≠ 't' ∧ digitChar d ≠ 'f' ∧
    digitChar d ≠ '"' ∧ digitChar d ≠ '-' := by
  decide

theorem escString_cons (c : Char) (l : List Char) :
    escString (c :: l) = escChar c ++ escString l := rfl

theorem parseStrLoop_succ (f : Nat) (c : Char) (rest : List Char) :
    parseStrLoop (f + 1) (c :: rest) =
      if c = '"' then some ([], rest)
      else if c = '\\' then
        match escDecode rest with
        | some er =>
          (parseStrLoop f er.2).map (fun p => (er.1 :: p.1, p.2))
        | none => none
      else (parseStrLoop f rest).map (fun p => (c :: p.1, p.2)) := rfl

theorem escDecode_quote (r : List Char) : escDecode ('"' :: r) = some ('"', r) := rfl

theorem escDecode_backslash (r : List Char) :
    escDecode ('\\' :: r) = some ('\\', r) := rfl

theorem parseStrLoop_escString (l : List Char) : ∀ (fuel : Nat) (rest : List Char),
    (escString l).length + 1 ≤ fuel →
    parseStrLoop fuel (escString l ++ '"' :: rest) = some (l, rest) := by
  induction l with
  | nil =>
    intro fuel rest hf
    match fuel, hf with
    | Nat.succ f, _ =>
      rw [escString, List.foldr_nil, List.nil_append, parseStrLoop_succ,
        if_pos rfl]
  | cons c l ih =>
    intro fuel rest hf
    rw [escString_cons] at hf ⊢
    by_cases hq : c = '"'
    · subst hq
      rw [show escChar '"' = ['\\', '"'] from rfl] at hf ⊢
      match fuel, hf with
      | Nat.succ f, hf =>
        have hrec : (escString l).length + 1 ≤ f := by
          simp at hf
          omega
        rw [show (['\\', '"'] : List Char) ++ escString l ++ '"' :: rest
            = '\\' :: '"' :: (escString l ++ '"' :: rest) by simp]
        rw [parseStrLoop_succ, if_neg (by decide), if_pos rfl, escDecode_quote]
        show (parseStrLoop f (escString l ++ '"' :: rest)).map
          (fun p => ('"' :: p.1, p.2)) = some ('"' :: l, rest)
        rw [ih f rest hrec]
        rfl
    · by_cases hb : c = '\\'
      · subst hb
        rw [show escChar '\\' = ['\\', '\\'] from rfl] at hf ⊢
        match fuel, hf with
        | Nat.succ f, hf =>
          have hrec : (escString l).length + 1 ≤ f := by
            simp at hf
            omega
          rw [show (['\\', '\\'] : List Char) ++ escString l ++ '"' :: rest
              = '\\' :: '\\' :: (escString l ++ '"' :: rest) by simp]
          rw [parseStrLoop_succ, if_neg (by decide), if_pos rfl,
            escDecode_backslash]
          show (parseStrLoop f (escString l ++ '"' :: rest)).map
            (fun p => ('\\' :: p.1, p.2)) = some ('\\' :: l, rest)
          rw [ih f rest hrec]
          rfl
      · by_cases hctl : c.toNat < 32
        · rw [escChar, if_neg hq, if_neg hb, if_pos hctl] at hf ⊢
          match fuel, hf with
          | Nat.succ f, hf =>
            have hrec : (escString l).length + 1 ≤ f := by
              simp at hf
              omega
            have hhi : hexVal (hexChar (c.toNat / 16)) = some (c.toNat / 16) :=
              hexVal_hexChar _ (by omega)
            have hlo : hexVal (hexChar (c.toNat % 16)) = some (c.toNat % 16) :=
              hexVal_hexChar _ (by omega)
            have he : escDecode ('u' :: '0' :: '0' :: hexChar (c.toNat / 16)
                :: hexChar (c.toNat % 16) :: (escString l ++ '"' :: rest))
                = some (c, escString l ++ '"' :: rest) := by
              rw [show escDecode ('u' :: '0' :: '0' :: hexChar (c.toNat / 16)
                  :: hexChar (c.toNat % 16) :: (escString l ++ '"' :: rest))
                  = (match hexVal '0', hexVal '0',
                      hexVal (hexChar (c.toNat / 16)),
                      hexVal (hexChar (c.toNat % 16)) with
                    | some a, some b, some c2, some d =>
                      some (Char.ofNat (((a * 16 + b) * 16 + c2) * 16 + d),
                        escString l ++ '"' :: rest)
                    | _, _, _, _ => none) from rfl]
              rw [hhi, hlo]
              show some (Char.ofNat (((0 * 16 + 0) * 16 + c.toNat / 16) * 16
                + c.toNat % 16), escString l ++ '"' :: rest) = _
              rw [show ((0 * 16 + 0) * 16 + c.toNat / 16) * 16 + c.toNat % 16
                  = c.toNat by omega]
              rw [Char.ofNat_toNat]
            rw [show (['\\', 'u', '0', '0', hexChar (c.toNat / 16),
                hexChar (c.toNat % 16)] : List Char) ++ escString l ++ '"' :: rest
                = '\\' :: 'u' :: '0' :: '0' :: hexChar (c.toNat / 16)
                  :: hexChar (c.toNat % 16) :: (escString l ++ '"' :: rest) by simp]
            rw [parseStrLoop_succ, if_neg (by decide), if_pos rfl, he]
            show (parseStrLoop f (escString l ++ '"' :: rest)).map
              (fun p => (c :: p.1, p.2)) = some (c :: l, rest)
            rw [ih f rest hrec]
            rfl
        · rw [escChar, if_neg hq, if_neg hb, if_neg hctl] at hf ⊢
          match fuel, hf with
          | Nat.succ f, hf =>
            have hrec : (escString l).length + 1 ≤ f := by
              simp at hf
              omega
            rw [show ([c] : List Char) ++ escString l ++ '"' :: rest
                = c :: (escString l ++ '"' :: rest) by simp]
            rw [parseStrLoop_succ, if_neg hq, if_neg hb]
            rw [ih f rest hrec]
            rfl

theorem takeDigits_append (ds : List Nat) (rest : List Char)
    (h : ∀ d ∈ ds, d < 10) (hrest : notDigitStart rest) :
    takeDigits (ds.map digitChar ++ rest) = (ds, rest) := by
  induction ds with
  | nil =>
    cases rest with
    | nil => rfl
    | cons c r =>
      simp only [notDigitStart] at hrest
      simp [takeDigits, hrest]
  | cons d ds ih =>
    have hd : d < 10 := h d (by simp)
    simp [takeDigits, charDigit?_digitChar d hd,
      ih (fun x hx => h x (by simp [hx]))]

theorem valueOf_digitsBE (n : Nat) : valueOf (digitsBE n) = n := by
  have hfold : ∀ L : List Nat,
      L.foldr (fun d a => a * 10 + d) 0 = Nat.ofDigits 10 L := by
    intro L
    induction L with
    | nil => simp [Nat.ofDigits]
    | cons d L ih =>
      simp [Nat.ofDigits_cons, ih]
      omega
  unfold valueOf digitsBE
  rw [List.foldl_reverse, hfold, Nat.ofDigits_digits]

theorem digitsBE_lt (n : Nat) : ∀ d ∈ digitsBE n, d < 10 := by
  intro d hd
  rw [digitsBE, List.mem_reverse] at hd
  exact Nat.digits_lt_base (by norm_num) hd

theorem isPrefixOf_append_self (l r : List Char) :
    l.isPrefixOf (l ++ r) = true := by
  induction l with
  | nil => simp [List.isPrefixOf]
  | cons c l ih => simp [List.isPrefixOf, ih]

theorem parseLit_append (lit : List Char) (v : JScalar) (rest : List Char) :
    parseLit lit v (lit ++ rest) = some (v, rest) := by
  rw [parseLit, if_pos (isPrefixOf_append_self lit rest), List.drop_left]

theorem parseScalar_cons (c : Char) (rest : List Char) :
    parseScalar (c :: rest) =
      (if c = 'n' then parseLit ['u', 'l', 'l'] JScalar.null rest
      else if c = 't' then parseLit ['r', 'u', 'e'] (JScalar.jbool true) rest
      else if c = 'f' then
        parseLit ['a', 'l', 's', 'e'] (JScalar.jbool false) rest
      else if c = '"' then
        match parseStrLoop rest.length rest with
        | some p => some (JScalar.jstr (String.mk p.1), p.2)
        | none => none
      else if c = '-' then parseNegNum rest
      else
        match charDigit? c with
        | some d => parseNumFrom d rest
        | none => none) := rfl

theorem parseScalar_render (v : JScalar) (rest : List Char)
    (hrest : notDigitStart rest) :
    parseScalar (renderScalar v ++ rest) = some (v, rest) := by
  cases v with
  | null =>
    show parseScalar ('n' :: (['u', 'l', 'l'] ++ rest)) = _
    rw [parseScalar_cons, if_pos rfl, parseLit_append]
  | jbool b =>
    cases b with
    | true =>
      show parseScalar ('t' :: (['r', 'u', 'e'] ++ rest)) = _
      rw [parseScalar_cons, if_neg (by decide), if_pos rfl, parseLit_append]
    | false =>
      show parseScalar ('f' :: (['a', 'l', 's', 'e'] ++ rest)) = _
      rw [parseScalar_cons, if_neg (by decide), if_neg (by decide),
        if_pos rfl, parseLit_append]
  | jstr s =>
    rw [show renderScalar (JScalar.jstr s) ++ rest
        = '"' :: ((escString s.data ++ ['"']) ++ rest) from rfl,
      List.append_assoc, List.singleton_append]
    rw [parseScalar_cons, if_neg (by decide), if_neg (by decide),
      if_neg (by decide), if_pos rfl]
    rw [parseStrLoop_escString s.data _ rest (by simp)]
  | jnum i =>
    by_cases hi : i < 0
    · have hne : i.natAbs ≠ 0 := by omega
      have hdne : digitsBE i.natAbs ≠ [] := by
        rw [digitsBE]
        simp [Nat.digits_ne_nil_iff_ne_zero, hne]
      obtain ⟨d0, ds', hds⟩ := List.exists_cons_of_ne_nil hdne
      rw [show renderScalar (JScalar.jnum i) = renderInt i from rfl,
        renderInt, if_pos hi, List.cons_append]
      rw [parseScalar_cons, if_neg (by decide), if_neg (by decide),
        if_neg (by decide), if_neg (by decide), if_pos rfl]
      rw [natChars, if_neg hne, hds, List.map_cons, List.cons_append]
      have htake : takeDigits (digitChar d0 :: (ds'.map digitChar ++ rest))
          = (d0 :: ds', rest) := by
        rw [show digitChar d0 :: (ds'.map digitChar ++ rest)
            = (d0 :: ds').map digitChar ++ rest by simp]
        exact takeDigits_append _ _ (by rw [← hds]; exact digitsBE_lt _) hrest
      simp only [parseNegNum, htake]
      rw [if_neg (by simp)]
      show some (JScalar.jnum (-(Int.ofNat (valueOf (d0 :: ds')))), rest) = _
      rw [show valueOf (d0 :: ds') = i.natAbs from by
        rw [← hds, valueOf_digitsBE]]
      refine congrArg (fun z => some (JScalar.jnum z, rest)) ?_
      simp only [Int.ofNat_eq_natCast]
      omega
    · by_cases h0 : i.toNat = 0
      · have hz : i = 0 := by omega
        subst hz
        show parseScalar ('0' :: rest) = _
        rw [parseScalar_cons, if_neg (by decide), if_neg (by decide),
          if_neg (by decide), if_neg (by decide), if_neg (by decide)]
        have htake : takeDigits rest = ([], rest) := by
          cases rest with
          | nil => rfl
          | cons c r =>
            simp only [notDigitStart] at hrest
            simp [takeDigits, hrest]
        show parseNumFrom 0 rest = _
        simp only [parseNumFrom, htake]
        rfl
      · have hdne : digitsBE i.toNat ≠ [] := by
          rw [digitsBE]
          simp [Nat.digits_ne_nil_iff_ne_zero, h0]
        obtain ⟨d0, ds', hds⟩ := List.exists_cons_of_ne_nil hdne
        have hd0 : d0 < 10 := by
          apply digitsBE_lt i.toNat
          rw [hds]
          simp
        obtain ⟨k1, k2, k3, k4, k5⟩ := digitChar_not_key d0 hd0
        rw [show renderScalar (JScalar.jnum i) = renderInt i from rfl,
          renderInt, if_neg hi, natChars, if_neg h0, hds, List.map_cons,
          List.cons_append]
        rw [parseScalar_cons, if_neg k1, if_neg k2, if_neg k3, if_neg k4,
          if_neg k5, charDigit?_digitChar d0 hd0]
        have htake : takeDigits (ds'.map digitChar ++ rest) = (ds', rest) :=
          takeDigits_append _ _
            (fun x hx => digitsBE_lt i.toNat x (by rw [hds]; simp [hx])) hrest
        show parseNumFrom d0 (ds'.map digitChar ++ rest) = _
        simp only [parseNumFrom, htake]
        show some (JScalar.jnum (Int.ofNat (valueOf (d0 :: ds'))), rest) = _
        rw [show valueOf (d0 :: ds') = i.toNat from by
          rw [← hds, valueOf_digitsBE]]
        refine congrArg (fun z => some (JScalar.jnum z, rest)) ?_
        simp only [Int.ofNat_eq_natCast]
        omega

/-- The JSON text of the members of an object, including the closing
brace (the opening brace is written by `renderObj`). -/
def renderMembers : List (String × JScalar) → List Char
  | [] => []
  | kv :: rest =>
    renderStr kv.1 ++ ':' :: (renderScalar kv.2 ++
      (if rest.isEmpty then ['}'] else ',' :: renderMembers rest))

/-- The compact JSON text of an object, one key-value pair per member. -/
def renderObj (t : List (String × JScalar)) : List Char :=
  match t with
  | [] => ['{', '}']
  | ms => '{' :: renderMembers ms

/-- Reads the members of a JSON object after its opening brace, up to
and including the closing brace. The fuel bounds the member count; the
input length suffices since every member consumes input. -/
def parseMembers : Nat → List Char → Option (List (String × JScalar) × List Char)
  | 0, _ => none
  | Nat.succ fuel, cs =>
    match cs with
    | '"' :: rest =>
      match parseStrLoop rest.length rest with
      | some kr =>
        (match kr.2 with
         | ':' :: r2 =>
           (match parseScalar r2 with
            | some vr =>
              (match vr.2 with
               | ',' :: r4 =>
                 (parseMembers fuel r4).map
                   (fun p => ((String.mk kr.1, vr.1) :: p.1, p.2))
               | '}' :: r4 => some ([(String.mk kr.1, vr.1)], r4)
               | _ => none)
            | none => none)
         | _ => none)
      | none => none
    | _ => none

/-- `json.loads` on the texts the canonical encoder produces: one JSON
object whose members are scalars, spanning the whole input. Duplicate
keys resolve as in a Python dict, the later value winning. -/
def json_loads (cs : List Char) : Option (List (String × JScalar)) :=
  match cs with
  | '{' :: '}' :: rest => if rest = [] then some [] else none
  | '{' :: rest =>
    match parseMembers (rest.length + 1) rest with
    | some mr => if mr.2 = [] then some (dictOf mr.1) else none
    | none => none
  | _ => none

theorem parseMembers_quote (f : Nat) (rest : List Char) :
    parseMembers (f + 1) ('"' :: rest) =
      match parseStrLoop rest.length rest with
      | some kr =>
        (match kr.2 with
         | ':' :: r2 =>
           (match parseScalar r2 with
            | some vr =>
              (match vr.2 with
               | ',' :: r4 =>
                 (parseMembers f r4).map
                   (fun p => ((String.mk kr.1, vr.1) :: p.1, p.2))
               | '}' :: r4 => some ([(String.mk kr.1, vr.1)], r4)
               | _ => none)
            | none => none)
         | _ => none)
      | none => none := rfl

theorem parseMembers_render (ms : List (String × JScalar)) :
    ∀ (fuel : Nat) (rest : List Char), ms ≠ [] → ms.length ≤ fuel →
    parseMembers fuel (renderMembers ms ++ rest) = some (ms, rest) := by
  induction ms with
  | nil => intro fuel rest hne _; exact absurd rfl hne
  | cons kv tl ih =>
    intro fuel rest _ hf
    match fuel, hf with
    | Nat.succ f, hf =>
      rw [show renderMembers (kv :: tl) ++ rest
          = '"' :: (escString kv.1.data ++ '"' :: (':' :: (renderScalar kv.2 ++
            ((if tl.isEmpty then ['}'] else ',' :: renderMembers tl) ++ rest))))
          by simp [renderMembers, renderStr]]
      rw [parseMembers_quote]
      rw [parseStrLoop_escString kv.1.data _ _ (by simp)]
      cases tl with
      | nil =>
        simp only [List.isEmpty_nil, if_true, List.singleton_append]
        rw [parseScalar_render kv.2 ('}' :: rest) (by simp [notDigitStart, charDigit?])]
        show some ([(String.mk kv.1.data, kv.2)], rest) = _
        rfl
      | cons m tl' =>
        simp only [List.isEmpty_cons, Bool.false_eq_true, if_false,
          List.cons_append]
        rw [parseScalar_render kv.2 (',' :: (renderMembers (m :: tl') ++ rest))
          (by simp [notDigitStart, charDigit?])]
        have hrec : parseMembers f (renderMembers (m :: tl') ++ rest)
            = some (m :: tl', rest) := by
          apply ih f rest (by simp)
          simp only [List.length_cons] at hf ⊢
          omega
        show (parseMembers f (renderMembers (m :: tl') ++ rest)).map
          (fun p => ((String.mk kv.1.data, kv.2) :: p.1, p.2)) = _
        rw [hrec]
        rfl

theorem renderMembers_length (ms : List (String × JScalar)) :
    ms.length ≤ (renderMembers ms).length := by
  induction ms with
  | nil => simp [renderMembers]
  | cons kv tl ih =>
    rw [renderMembers]
    cases tl with
    | nil =>
      simp
      omega
    | cons m tl' =>
      simp only [List.isEmpty_cons, Bool.false_eq_true, if_false]
      simp only [List.length_append, List.length_cons]
      simp only [List.length_cons] at ih ⊢
      omega

theorem json_loads_quote (t : List Char) :
    json_loads ('{' :: '"' :: t) =
      match parseMembers (('"' :: t).length + 1) ('"' :: t) with
      | some mr => if mr.2 = [] then some (dictOf mr.1) else none
      | none => none := rfl

theorem json_loads_render (ms : List (String × JScalar)) :
    json_loads (renderObj ms) = some (dictOf ms) := by
  cases ms with
  | nil => rfl
  | cons kv tl =>
    have hm : parseMembers ((renderMembers (kv :: tl)).length + 1)
        (renderMembers (kv :: tl)) = some (kv :: tl, []) := by
      have hb : (kv :: tl).length ≤ (renderMembers (kv :: tl)).length + 1 := by
        have := renderMembers_length (kv :: tl)
        omega
      have := parseMembers_render (kv :: tl)
        ((renderMembers (kv :: tl)).length + 1) [] (by simp) hb
      rw [List.append_nil] at this
      exact this
    have hhead : renderMembers (kv :: tl)
        = '"' :: (escString kv.1.data ++ ('"' :: (':' :: (renderScalar kv.2 ++
          (if tl.isEmpty then ['}'] else ',' :: renderMembers tl))))) := by
      simp [renderMembers, renderStr]
    show json_loads ('{' :: renderMembers (kv :: tl)) = _
    rw [hhead, json_loads_quote, ← hhead, hm]
    rfl

/-- The JSON scalar projection of an attribute or payload value:
JSON-friendly scalars map to their JSON counterparts, binary values are
carried as their base64 text, datetimes as their RFC3339 text. -/
def jsonOfValue : Value → JScalar
  | Value.null => JScalar.null
  | Value.vbool b => JScalar.jbool b
  | Value.vint n => JScalar.jnum n
  | Value.vstr s => JScalar.jstr s
  | Value.vbytes bs => JScalar.jstr (String.mk (b64encode bs))
  | Value.vtime s => JScalar.jstr s

/-- Modelled from the spec: the members of the structured-mode envelope
produced by the shared canonical encoder - every encoded attribute of
the event, followed by the payload under the `data` key, which is
omitted when the payload is null. -/
def structuredMembers (e : CloudEvent) : List (String × JScalar) :=
  (CloudEvent.get_attributes e).map (fun kv => (kv.1, jsonOfValue kv.2)) ++
    (if CloudEvent.get_data e = Value.null then []
     else [("data", jsonOfValue (CloudEvent.get_data e))])

/-- Modelled from the spec: `conversion.to_json` (the
`cloudevents.conversion` module is not under src), the single canonical
structured-mode JSON encoder shared by every event representation. -/
def to_json (e : CloudEvent) : List Char :=
  renderObj (structuredMembers e)

/-- `_ce_json_dumps`, the pydantic `model_serializer` hook for json
mode: delegates to the shared encoder `to_json` and re-parses its
canonical bytes with `json.loads` into the tree pydantic expects. -/
def ce_json_dumps (e : CloudEvent) : Option (List (String × JScalar)) :=
  json_loads (to_json e)

theorem ce_json_dumps_eq (e : CloudEvent) :
    ce_json_dumps e = some (dictOf (structuredMembers e)) := by
  rw [ce_json_dumps, to_json, json_loads_render]

/-! ### Dictionary lemmas -/

theorem dictLookup_dictSet_self {α : Type} (d : List (String × α))
    (k : String) (v : α) : dictLookup (dictSet d k v) k = some v := by
  induction d with
  | nil => simp [dictSet, dictLookup]
  | cons kv rest ih =>
    by_cases h : kv.1 = k
    · simp [dictSet, dictLookup, h]
    · simp [dictSet, dictLookup, h, ih]

theorem dictLookup_dictSet_ne {α : Type} (d : List (String × α))
    (k : String) (v : α) (q : String) (h : q ≠ k) :
    dictLookup (dictSet d k v) q = dictLookup d q := by
  induction d with
  | nil => simp [dictSet, dictLookup, Ne.symm h]
  | cons kv rest ih =>
    by_cases hk : kv.1 = k
    · rw [dictSet, if_pos hk]
      rw [dictLookup, if_neg (fun hh => h hh.symm), dictLookup,
        if_neg (by rw [hk]; exact fun hh => h hh.symm)]
    · rw [dictSet, if_neg hk]
      by_cases hq : kv.1 = q
      · rw [dictLookup, if_pos hq, dictLookup, if_pos hq]
      · rw [dictLookup, if_neg hq, dictLookup, if_neg hq, ih]

theorem dictLookup_dictErase_self {α : Type} (d : List (String × α))
    (k : String) : dictLookup (dictErase d k) k = none := by
  induction d with
  | nil => simp [dictErase, dictLookup]
  | cons kv rest ih =>
    by_cases h : kv.1 = k
    · simpa [dictErase, dictLookup, h] using ih
    · simpa [dictErase, dictLookup, h] using ih

/-- The keys of a dict. -/
def dictKeys {α : Type} (d : List (String × α)) : List String :=
  d.map Prod.fst

theorem mem_dictKeys_dictSet {α : Type} (d : List (String × α))
    (k : String) (v : α) (q : String)
    (h : q ∈ dictKeys (dictSet d k v)) : q = k ∨ q ∈ dictKeys d := by
  induction d with
  | nil => simp [dictSet, dictKeys] at h; simp [h]
  | cons kv rest ih =>
    by_cases hk : kv.1 = k
    · rw [dictSet, if_pos hk] at h
      simp [dictKeys] at h ⊢
      rcases h with h | h
      · exact Or.inl h
      · exact Or.inr (Or.inr h)
    · rw [dictSet, if_neg hk] at h
      simp [dictKeys] at h ⊢
      rcases h with h | h
      · exact Or.inr (Or.inl h)
      · rcases ih (by simpa [dictKeys] using h) with hh | hh
        · exact Or.inl hh
        · simp [dictKeys] at hh
          exact Or.inr (Or.inr hh)

theorem mem_dictKeys_dictErase {α : Type} (d : List (String × α))
    (k : String) (q : String)
    (h : q ∈ dictKeys (dictErase d k)) : q ∈ dictKeys d := by
  simp only [dictKeys, dictErase, List.mem_map] at h ⊢
  obtain ⟨kv, hkv, hq⟩ := h
  exact ⟨kv, (List.mem_filter.mp hkv).1, hq⟩

theorem mem_dictKeys_dictOf {α : Type} (l : List (String × α)) (q : String)
    (h : q ∈ dictKeys (dictOf l)) : q ∈ dictKeys l := by
  have haux : ∀ (l : List (String × α)) (acc : List (String × α)),
      q ∈ dictKeys (l.foldl (fun d kv => dictSet d kv.1 kv.2) acc) →
      q ∈ dictKeys acc ∨ q ∈ dictKeys l := by
    intro l
    induction l with
    | nil => intro acc hh; exact Or.inl hh
    | cons kv rest ih =>
      intro acc hh
      rw [List.foldl_cons] at hh
      rcases ih (dictSet acc kv.1 kv.2) hh with hh' | hh'
      · rcases mem_dictKeys_dictSet acc kv.1 kv.2 q hh' with hh'' | hh''
        · right; simp [dictKeys, hh'']
        · exact Or.inl hh''
      · right
        simp [dictKeys] at hh' ⊢
        exact Or.inr hh'
  rcases haux l [] h with hh | hh
  · simp [dictKeys] at hh
  · exact hh

theorem dictLookup_get_attributes (d ext : List (String × Value))
    (k : String) (hk1 : k ≠ "data") (hk2 : k ≠ "base64_data") :
    dictLookup (CloudEvent.get_attributes ⟨d, ext⟩) k =
      (dictLookup d k).map best_effort_encode_attribute_value := by
  induction d with
  | nil => simp [CloudEvent.get_attributes, dictLookup]
  | cons kv rest ih =>
    by_cases hq : kv.1 = k
    · subst hq
      have hf : kv.1 ∉ (["data", "base64_data"] : List String) := by
        simp [hk1, hk2]
      simp [CloudEvent.get_attributes, List.filter_cons, hf, dictLookup]
      rw [if_pos ⟨hk1, hk2⟩]
      simp [dictLookup]
    · by_cases hf : kv.1 ∉ (["data", "base64_data"] : List String)
      · simp only [CloudEvent.get_attributes, List.filter_cons] at ih ⊢
        simp only [hf, decide_not, List.map_cons]
        simp [dictLookup, hq]
        simpa using ih
      · simp only [CloudEvent.get_attributes, List.filter_cons] at ih ⊢
        simp only [hf, decide_not]
        simp [dictLookup, hq]
        simpa using ih

theorem dictLookup_get_attributes_none (d ext : List (String × Value))
    (k : String) (h : dictLookup d k = none) :
    dictLookup (CloudEvent.get_attributes ⟨d, ext⟩) k = none := by
  induction d with
  | nil => simp [CloudEvent.get_attributes, dictLookup]
  | cons kv rest ih =>
    rw [dictLookup] at h
    by_cases hq : kv.1 = k
    · rw [if_pos hq] at h
      exact absurd h (by simp)
    · rw [if_neg hq] at h
      by_cases hf : kv.1 ∉ (["data", "base64_data"] : List String)
      · simp only [CloudEvent.get_attributes, List.filter_cons] at ih ⊢
        simp only [hf, decide_not, List.map_cons]
        simp [dictLookup, hq]
        simpa using ih h
      · simp only [CloudEvent.get_attributes, List.filter_cons] at ih ⊢
        simp only [hf, decide_not]
        simpa using ih h

theorem check_base64_keys (input out : List (String × Value))
    (h : CloudEvent.check_base64_data_input input = Except.ok out) :
    ∀ k ∈ dictKeys out, k = "data" ∨ k ∈ dictKeys input := by
  unfold CloudEvent.check_base64_data_input at h
  split at h
  · cases h
    exact fun k hk => Or.inr hk
  · cases h
    exact fun k hk => Or.inr hk
  · split at h
    · cases h
      intro k hk
      have hk' := mem_dictKeys_dictErase _ _ _ hk
      rcases mem_dictKeys_dictSet _ _ _ _ hk' with h1 | h1
      · exact Or.inl h1
      · exact Or.inr h1
    · simp at h
  · split at h
    · cases h
      intro k hk
      have hk' := mem_dictKeys_dictErase _ _ _ hk
      rcases mem_dictKeys_dictSet _ _ _ _ hk' with h1 | h1
      · exact Or.inl h1
      · exact Or.inr h1
    · simp at h
  · simp at h

theorem modelValidate_ok_dict (gen : Hooks) (input0 : List (String × Value))
    (e : CloudEvent) (h : CloudEvent.modelValidate gen input0 = Except.ok e) :
    ∃ input, CloudEvent.check_base64_data_input input0 = Except.ok input ∧
      e.dict =
        [("data", CloudEvent.fieldOr input "data" Value.null),
         ("source", CloudEvent.fieldOr input "source" Value.null),
         ("id", CloudEvent.fieldOr input "id" (Value.vstr gen.genId)),
         ("type", CloudEvent.fieldOr input "type" Value.null),
         ("specversion",
           CloudEvent.fieldOr input "specversion" (Value.vstr DEFAULT_SPECVERSION)),
         ("time", CloudEvent.fieldOr input "time" (Value.vtime gen.genTime)),
         ("subject", CloudEvent.fieldOr input "subject" Value.null),
         ("datacontenttype", CloudEvent.fieldOr input "datacontenttype" Value.null),
         ("dataschema", CloudEvent.fieldOr input "dataschema" Value.null)] ∧
      e.extra = input.filter (fun kv => kv.1 ∉ pydanticFields) := by
  unfold CloudEvent.modelValidate at h
  split at h
  · simp at h
  · rename_i input heq
    repeat' split at h
    all_goals simp at h
    exact ⟨input, heq, by rw [← h], by rw [← h]; simp [decide_not]⟩

theorem init_some_ok (gen : Hooks) (attrs : List (String × Value)) (d : Value)
    (e : CloudEvent)
    (h : CloudEvent.init gen (some attrs) d [] = Except.ok e) :
    ∃ M, CloudEvent.modelValidate gen (("data", d) :: M) = Except.ok e ∧
      ∀ k ∈ dictKeys M, ∃ k0, k = strLower k0 := by
  cases attrs with
  | nil =>
    refine ⟨[], ?_, by simp [dictKeys]⟩
    have h' : (match CloudEvent.modelValidate gen [("data", d)] with
      | Except.ok e' => (Except.ok e' : Except CEError CloudEvent)
      | Except.error ve => Except.error (CEError.validation ve))
        = Except.ok e := h
    split at h'
    · cases h'
      assumption
    · simp at h'
  | cons a as =>
    refine ⟨dictOf ((a :: as).map (fun kv => (strLower kv.1, kv.2))), ?_, ?_⟩
    · have h' : (if (dictLookup
          (dictOf ((a :: as).map (fun kv => (strLower kv.1, kv.2)))) "data").isSome
        then (Except.error CEError.duplicateDataKeyword : Except CEError CloudEvent)
        else match CloudEvent.modelValidate gen (("data", d) ::
          dictOf ((a :: as).map (fun kv => (strLower kv.1, kv.2)))) with
          | Except.ok e' => Except.ok e'
          | Except.error ve => Except.error (CEError.validation ve))
        = Except.ok e := h
      split at h'
      · simp at h'
      · split at h'
        · cases h'
          assumption
        · simp at h'
    · intro k hk
      have hk' := mem_dictKeys_dictOf _ _ hk
      simp only [dictKeys, List.map_map, List.mem_map] at hk'
      obtain ⟨kv, _, hkv⟩ := hk'
      exact ⟨kv.1, hkv.symm⟩

theorem mem_dictKeys_filter {α : Type} (d : List (String × α))
    (p : String × α → Bool) (q : String)
    (h : q ∈ dictKeys (d.filter p)) : q ∈ dictKeys d := by
  simp only [dictKeys, List.mem_map] at h ⊢
  obtain ⟨kv, hkv, hq⟩ := h
  exact ⟨kv, (List.mem_filter.mp hkv).1, hq⟩

theorem check_base64_none (input : List (String × Value))
    (h : dictLookup input "data_base64" = none) :
    CloudEvent.check_base64_data_input input = Except.ok input := by
  unfold CloudEvent.check_base64_data_input
  rw [h]

theorem init_none_eq (gen : Hooks) (d : Value)
    (kwargs : List (String × Value)) :
    CloudEvent.init gen none d kwargs
      = (if (dictLookup kwargs "data").isSome
        then Except.error CEError.duplicateDataKeyword
        else match CloudEvent.modelValidate gen (("data", d) :: kwargs) with
          | Except.ok e' => Except.ok e'
          | Except.error ve => Except.error (CEError.validation ve)) := rfl

theorem init_none_no_incompat (gen : Hooks) (d : Value)
    (kwargs : List (String × Value)) :
    CloudEvent.init gen none d kwargs
      ≠ Except.error CEError.incompatibleArguments := by
  rw [init_none_eq]
  intro h
  split at h
  · simp at h
  · split at h <;> simp at h

theorem init_some_no_incompat (gen : Hooks) (attrs : List (String × Value))
    (d : Value) :
    CloudEvent.init gen (some attrs) d []
      ≠ Except.error CEError.incompatibleArguments := by
  cases attrs with
  | nil =>
    intro h
    have h' : (match CloudEvent.modelValidate gen [("data", d)] with
      | Except.ok e' => (Except.ok e' : Except CEError CloudEvent)
      | Except.error ve => Except.error (CEError.validation ve))
        = Except.error CEError.incompatibleArguments := h
    split at h' <;> simp at h'
  | cons a as =>
    intro h
    have h' : (if (dictLookup
          (dictOf ((a :: as).map (fun kv => (strLower kv.1, kv.2)))) "data").isSome
        then (Except.error CEError.duplicateDataKeyword : Except CEError CloudEvent)
        else match CloudEvent.modelValidate gen (("data", d) ::
          dictOf ((a :: as).map (fun kv => (strLower kv.1, kv.2)))) with
          | Except.ok e' => Except.ok e'
          | Except.error ve => Except.error (CEError.validation ve))
        = Except.error CEError.incompatibleArguments := h
    split at h'
    · simp at h'
    · split at h' <;> simp at h'

/-! ### Claims -/

/-- C1: constructing with a non-empty attribute mapping together with at
least one keyword field raises `IncompatibleArgumentsError` and no event
is created, while a non-empty mapping alone, or keyword fields alone,
never raise that error. -/
theorem claim1_incompatible_arguments :
    (∀ (gen : Hooks) (attrs : List (String × Value)) (d : Value)
        (kwargs : List (String × Value)), attrs ≠ [] → kwargs ≠ [] →
      CloudEvent.init gen (some attrs) d kwargs
        = Except.error CEError.incompatibleArguments) ∧
    (∀ (gen : Hooks) (attrs : List (String × Value)) (d : Value),
      CloudEvent.init gen (some attrs) d []
        ≠ Except.error CEError.incompatibleArguments) ∧
    (∀ (gen : Hooks) (d : Value) (kwargs : List (String × Value)),
      CloudEvent.init gen none d kwargs
        ≠ Except.error CEError.incompatibleArguments) := by
  refine ⟨?_, init_some_no_incompat, init_none_no_incompat⟩
  intro gen attrs d kwargs ha hk
  cases attrs with
  | nil => exact absurd rfl ha
  | cons a as =>
    cases kwargs with
    | nil => exact absurd rfl hk
    | cons k0 ks => rfl

/-- C1 witness: a concrete mapping plus a concrete keyword field fail
with the incompatible-arguments error. -/
theorem claim1_witness :
    CloudEvent.init ⟨"u", "T"⟩ (some [("type", Value.vstr "t")]) Value.null
      [("source", Value.vstr "s")] = Except.error CEError.incompatibleArguments :=
  claim1_incompatible_arguments.1 ⟨"u", "T"⟩ [("type", Value.vstr "t")]
    Value.null [("source", Value.vstr "s")] (by simp) (by simp)

/-- C10: an explicitly supplied empty attribute mapping together with
keyword fields is accepted, behaves exactly like construction from the
keyword fields alone, and never raises the incompatible-arguments
error: the truthiness test, not mere presence of the argument, gates
the error. -/
theorem claim10_empty_mapping (gen : Hooks) (d : Value)
    (kwargs : List (String × Value)) :
    CloudEvent.init gen (some []) d kwargs = CloudEvent.init gen none d kwargs ∧
    CloudEvent.init gen (some []) d kwargs
      ≠ Except.error CEError.incompatibleArguments := by
  refine ⟨rfl, ?_⟩
  intro h
  exact init_none_no_incompat gen d kwargs h

/-- C7: setting the key `data` through the generic attribute-set path
is a silent no-op leaving the event (hence the payload and every other
attribute) unchanged, while setting any other key assigns the value to
that attribute: a declared field name in the instance dictionary, any
other name in the extra store. -/
theorem claim7_set_data_noop :
    (∀ (e : CloudEvent) (v : Value), CloudEvent.setItem e "data" v = e) ∧
    (∀ (e : CloudEvent) (k : String) (v : Value), k ≠ "data" →
      k ∈ pydanticFields →
      CloudEvent.setItem e k v = ⟨dictSet e.dict k v, e.extra⟩ ∧
      dictLookup (CloudEvent.setItem e k v).dict k = some v) ∧
    (∀ (e : CloudEvent) (k : String) (v : Value), k ∉ pydanticFields →
      CloudEvent.setItem e k v = ⟨e.dict, dictSet e.extra k v⟩ ∧
      dictLookup (CloudEvent.setItem e k v).extra k = some v) := by
  refine ⟨fun e v => rfl, ?_, ?_⟩
  · intro e k v hk hf
    rw [CloudEvent.setItem, if_pos hk, if_pos hf]
    exact ⟨rfl, dictLookup_dictSet_self e.dict k v⟩
  · intro e k v hf
    have hk : k ≠ "data" := by
      intro hd
      rw [hd] at hf
      exact hf (by decide)
    rw [CloudEvent.setItem, if_pos hk, if_neg hf]
    exact ⟨rfl, dictLookup_dictSet_self e.extra k v⟩

/-- C7 witness: on a concrete event, setting `data` is the identity,
setting the declared field `subject` stores the value in the instance
dictionary, and setting an extension key stores it in the extra
store. -/
theorem claim7_witness :
    CloudEvent.setItem ⟨[("data", Value.null)], []⟩ "data" (Value.vstr "x")
      = (⟨[("data", Value.null)], []⟩ : CloudEvent) ∧
    dictLookup (CloudEvent.setItem ⟨[("data", Value.null)], []⟩ "subject"
      (Value.vstr "x")).dict "subject" = some (Value.vstr "x") ∧
    dictLookup (CloudEvent.setItem ⟨[("data", Value.null)], []⟩ "myext"
      (Value.vstr "y")).extra "myext" = some (Value.vstr "y") :=
  ⟨claim7_set_data_noop.1 ⟨[("data", Value.null)], []⟩ (Value.vstr "x"),
   (claim7_set_data_noop.2.1 ⟨[("data", Value.null)], []⟩ "subject"
     (Value.vstr "x") (by decide) (by decide)).2,
   (claim7_set_data_noop.2.2 ⟨[("data", Value.null)], []⟩ "myext"
     (Value.vstr "y") (by decide)).2⟩

/-- C9: setting `data_base64` through the generic attribute-set path
after construction does not re-run the base64 decode hook: the payload
is unchanged and the value is stored verbatim under the ordinary
extension attribute `data_base64`. -/
theorem claim9_set_data_base64_verbatim (e : CloudEvent) (v : Value) :
    CloudEvent.get_data (CloudEvent.setItem e "data_base64" v)
      = CloudEvent.get_data e ∧
    dictLookup (CloudEvent.setItem e "data_base64" v).extra "data_base64"
      = some v := by
  rw [CloudEvent.setItem, if_pos (by decide), if_neg (by decide)]
  exact ⟨rfl, dictLookup_dictSet_self e.extra "data_base64" v⟩

/-- C6: deleting the key `data` always fails with the not-found
condition; deleting a key that is stored in neither the instance
dictionary nor the extra store fails the same way; deleting a stored
key other than `data` - a declared field or an extension - removes it,
so it no longer appears in attribute-map reads. -/
theorem claim6_delete :
    (∀ e : CloudEvent, CloudEvent.delItem e "data" = none) ∧
    (∀ (e : CloudEvent) (k : String), dictLookup e.dict k = none →
      dictLookup e.extra k = none → CloudEvent.delItem e k = none) ∧
    (∀ (e : CloudEvent) (k : String) (v : Value), k ≠ "data" →
      dictLookup e.dict k = some v →
      CloudEvent.delItem e k = some ⟨dictErase e.dict k, e.extra⟩ ∧
      dictLookup (CloudEvent.get_attributes ⟨dictErase e.dict k, e.extra⟩) k
        = none) ∧
    (∀ (e : CloudEvent) (k : String) (v : Value), k ≠ "data" →
      dictLookup e.dict k = none → dictLookup e.extra k = some v →
      CloudEvent.delItem e k = some ⟨e.dict, dictErase e.extra k⟩ ∧
      dictLookup (CloudEvent.get_attributes ⟨e.dict, dictErase e.extra k⟩) k
        = none) := by
  refine ⟨fun e => rfl, ?_, ?_, ?_⟩
  · intro e k h1 h2
    by_cases hk : k = "data"
    · simp [CloudEvent.delItem, hk]
    · simp [CloudEvent.delItem, hk, h1, h2]
  · intro e k v hk h
    constructor
    · simp [CloudEvent.delItem, hk, h]
    · exact dictLookup_get_attributes_none _ _ _
        (dictLookup_dictErase_self e.dict k)
  · intro e k v hk h1 h2
    constructor
    · simp [CloudEvent.delItem, hk, h1, h2]
    · exact dictLookup_get_attributes_none _ _ _ h1

/-- C6 witness: on a concrete event, deleting `data` and a missing key
fail, deleting the stored field `subject` removes it from the
attribute map, and deleting the stored extension `ext` leaves none of
it behind either. -/
theorem claim6_witness :
    CloudEvent.delItem
      ⟨[("data", Value.null), ("subject", Value.vstr "x")],
       [("ext", Value.vstr "y")]⟩ "data" = none ∧
    CloudEvent.delItem
      ⟨[("data", Value.null), ("subject", Value.vstr "x")],
       [("ext", Value.vstr "y")]⟩ "nope" = none ∧
    dictLookup (CloudEvent.get_attributes
      ⟨dictErase [("data", Value.null), ("subject", Value.vstr "x")] "subject",
       [("ext", Value.vstr "y")]⟩) "subject" = none ∧
    dictLookup (CloudEvent.get_attributes
      ⟨[("data", Value.null), ("subject", Value.vstr "x")],
       dictErase [("ext", Value.vstr "y")] "ext"⟩) "ext" = none :=
  ⟨claim6_delete.1
      ⟨[("data", Value.null), ("subject", Value.vstr "x")],
       [("ext", Value.vstr "y")]⟩,
   claim6_delete.2.1
      ⟨[("data", Value.null), ("subject", Value.vstr "x")],
       [("ext", Value.vstr "y")]⟩ "nope" rfl rfl,
   (claim6_delete.2.2.1
      ⟨[("data", Value.null), ("subject", Value.vstr "x")],
       [("ext", Value.vstr "y")]⟩ "subject" (Value.vstr "x")
      (by decide) rfl).2,
   (claim6_delete.2.2.2
      ⟨[("data", Value.null), ("subject", Value.vstr "x")],
       [("ext", Value.vstr "y")]⟩ "ext" (Value.vstr "y")
      (by decide) rfl rfl).2⟩

/-- C4 (code behavior at the failing input): `_get_attributes`
iterates `self.__dict__`, which in pydantic v2 holds only the declared
fields, so a stored extension attribute - here
`comexampleextension1`, kept in the extra store - is omitted from the
returned attribute map, contradicting the claim that the key set is
exactly the stored attributes minus `data` and the transient
`data_base64` artifact. -/
theorem claim4_attribute_read_drops_extensions :
    (CloudEvent.init ⟨"u", "T"⟩
        (some [("type", Value.vstr "t"), ("source", Value.vstr "s"),
          ("comexampleextension1", Value.vstr "value")])
        Value.null []).map
      (fun e => (dictLookup e.extra "comexampleextension1",
        dictLookup (CloudEvent.get_attributes e) "comexampleextension1"))
      = Except.ok (some (Value.vstr "value"), none) := rfl

/-- C5 counterexample: keyword-field construction stores the key `Ext`
verbatim (as an extension attribute), and `Ext` is not lowercase,
refuting case-normalization on all construction paths. -/
theorem claim5_counterexample :
    (CloudEvent.init ⟨"u", "T"⟩ none Value.null
        [("type", Value.vstr "t"), ("source", Value.vstr "s"),
         ("Ext", Value.vstr "x")]).map
      (fun e => dictLookup e.extra "Ext") = Except.ok (some (Value.vstr "x")) ∧
    strLower "Ext" ≠ "Ext" :=
  ⟨rfl, by decide⟩

/-- C5 amended: keys supplied through the attribute mapping are
case-normalized to lowercase at construction (every key stored in the
instance dictionary or the extra store of a mapping-path event is
lowercase), while keyword-field keys are stored verbatim, with no case
normalization. -/
theorem claim5_amended :
    (∀ (gen : Hooks) (attrs : List (String × Value)) (d : Value)
        (e : CloudEvent),
      CloudEvent.init gen (some attrs) d [] = Except.ok e →
      ∀ k, k ∈ dictKeys e.dict ∨ k ∈ dictKeys e.extra → strLower k = k) ∧
    (∀ (gen : Hooks) (d : Value) (kwargs : List (String × Value))
        (e : CloudEvent),
      dictLookup kwargs "data_base64" = none →
      CloudEvent.init gen none d kwargs = Except.ok e →
      ∀ kv ∈ kwargs, kv.1 ∉ pydanticFields → kv ∈ e.extra) := by
  constructor
  · intro gen attrs d e h k hk
    obtain ⟨M, hmv, hM⟩ := init_some_ok gen attrs d e h
    obtain ⟨input, hck, hdict, hextra⟩ := modelValidate_ok_dict gen _ e hmv
    rcases hk with hk | hk
    · rw [hdict] at hk
      simp only [dictKeys, List.map_cons, List.map_nil, List.mem_cons,
        List.not_mem_nil, or_false] at hk
      rcases hk with h | h | h | h | h | h | h | h | h <;> (rw [h]; decide)
    · rw [hextra] at hk
      have hk' : k ∈ dictKeys input := mem_dictKeys_filter input _ k hk
      rcases check_base64_keys _ input hck k hk' with h | h
      · rw [h]; decide
      · simp only [dictKeys, List.map_cons, List.mem_cons] at h
        rcases h with h | h
        · rw [h]; decide
        · obtain ⟨k0, hk0⟩ := hM k (by simpa [dictKeys] using h)
          rw [hk0]
          exact strLower_idem k0
  · intro gen d kwargs e hb64 h kv hkv hnp
    have h' : (if (dictLookup kwargs "data").isSome
        then (Except.error CEError.duplicateDataKeyword : Except CEError CloudEvent)
        else match CloudEvent.modelValidate gen (("data", d) :: kwargs) with
          | Except.ok e2 => Except.ok e2
          | Except.error ve => Except.error (CEError.validation ve))
        = Except.ok e := h
    split at h'
    · simp at h'
    · split at h'
      · rename_i e2 hmv
        cases h'
        obtain ⟨input, hck, hdict, hextra⟩ := modelValidate_ok_dict gen _ e hmv
        have hck2 : CloudEvent.check_base64_data_input (("data", d) :: kwargs)
            = Except.ok (("data", d) :: kwargs) := by
          apply check_base64_none
          rw [dictLookup,
            if_neg (show ¬(("data" : String) = "data_base64") by decide)]
          exact hb64
        rw [hck] at hck2
        have hinput : input = ("data", d) :: kwargs := Except.ok.inj hck2
        subst hinput
        rw [hextra]
        rw [List.filter_cons]
        rw [if_neg (by simp [pydanticFields])]
        exact List.mem_filter.mpr ⟨hkv, by simpa using hnp⟩
      · simp at h'

/-- C5 amended witness: the mapping path yields the lowercase stored
key `type`, and the keyword path stores the extension entry `ext`
verbatim in the extra store, on concrete events. -/
theorem claim5_amended_witness :
    strLower "type" = "type" ∧
    ("ext", Value.vstr "x") ∈
      (⟨[("data", Value.null), ("source", Value.vstr "s"),
         ("id", Value.vstr "u"), ("type", Value.vstr "t"),
         ("specversion", Value.vstr "1.0"), ("time", Value.vtime "T"),
         ("subject", Value.null), ("datacontenttype", Value.null),
         ("dataschema", Value.null)], [("ext", Value.vstr "x")]⟩ :
        CloudEvent).extra :=
  ⟨claim5_amended.1 ⟨"u", "T"⟩ [("type", Value.vstr "t"),
      ("source", Value.vstr "s")] Value.null
      ⟨[("data", Value.null), ("source", Value.vstr "s"),
        ("id", Value.vstr "u"), ("type", Value.vstr "t"),
        ("specversion", Value.vstr "1.0"), ("time", Value.vtime "T"),
        ("subject", Value.null), ("datacontenttype", Value.null),
        ("dataschema", Value.null)], []⟩ rfl "type" (Or.inl (by decide)),
   claim5_amended.2 ⟨"u", "T"⟩ Value.null
      [("type", Value.vstr "t"), ("source", Value.vstr "s"),
       ("ext", Value.vstr "x")]
      ⟨[("data", Value.null), ("source", Value.vstr "s"),
        ("id", Value.vstr "u"), ("type", Value.vstr "t"),
        ("specversion", Value.vstr "1.0"), ("time", Value.vtime "T"),
        ("subject", Value.null), ("datacontenttype", Value.null),
        ("dataschema", Value.null)], [("ext", Value.vstr "x")]⟩ rfl rfl
      ("ext", Value.vstr "x") (by decide) (by decide)⟩

/-- C8: constructing from the mapping with only `type` and `source`
succeeds; the event carries the id produced by the pluggable default-id
algorithm (non-empty whenever that algorithm returns a non-empty
string), the non-null time produced by the pluggable default-time
algorithm, and specversion `1.0` - all materialized in the stored
attribute dictionary at construction time. -/
theorem claim8_defaults (gen : Hooks) (t s : String) (hid : gen.genId ≠ "") :
    ∃ e, CloudEvent.init gen
        (some [("type", Value.vstr t), ("source", Value.vstr s)])
        Value.null [] = Except.ok e ∧
      e.dict =
        [("data", Value.null), ("source", Value.vstr s),
         ("id", Value.vstr gen.genId), ("type", Value.vstr t),
         ("specversion", Value.vstr DEFAULT_SPECVERSION),
         ("time", Value.vtime gen.genTime), ("subject", Value.null),
         ("datacontenttype", Value.null), ("dataschema", Value.null)] ∧
      dictLookup e.dict "id" = some (Value.vstr gen.genId) ∧ gen.genId ≠ "" ∧
      dictLookup e.dict "time" = some (Value.vtime gen.genTime) ∧
      Value.vtime gen.genTime ≠ Value.null ∧
      dictLookup e.dict "specversion" = some (Value.vstr "1.0") := by
  refine ⟨⟨[("data", Value.null), ("source", Value.vstr s),
      ("id", Value.vstr gen.genId), ("type", Value.vstr t),
      ("specversion", Value.vstr DEFAULT_SPECVERSION),
      ("time", Value.vtime gen.genTime), ("subject", Value.null),
      ("datacontenttype", Value.null), ("dataschema", Value.null)], []⟩,
    rfl, rfl, rfl, hid, rfl, by simp, rfl⟩

/-- C8 witness: concrete hooks and fields instantiate the construction
with its generated defaults. -/
theorem claim8_defaults_witness :
    ∃ e, CloudEvent.init ⟨"uid-1", "2024-01-01T00:00:00Z"⟩
        (some [("type", Value.vstr "t"), ("source", Value.vstr "s")])
        Value.null [] = Except.ok e ∧
      e.dict =
        [("data", Value.null), ("source", Value.vstr "s"),
         ("id", Value.vstr "uid-1"), ("type", Value.vstr "t"),
         ("specversion", Value.vstr DEFAULT_SPECVERSION),
         ("time", Value.vtime "2024-01-01T00:00:00Z"), ("subject", Value.null),
         ("datacontenttype", Value.null), ("dataschema", Value.null)] ∧
      dictLookup e.dict "id" = some (Value.vstr "uid-1") ∧ "uid-1" ≠ "" ∧
      dictLookup e.dict "time"
        = some (Value.vtime "2024-01-01T00:00:00Z") ∧
      Value.vtime "2024-01-01T00:00:00Z" ≠ Value.null ∧
      dictLookup e.dict "specversion" = some (Value.vstr "1.0") :=
  claim8_defaults ⟨"uid-1", "2024-01-01T00:00:00Z"⟩ "t" "s" (by decide)

/-- C2: constructing from a mapping with the required fields and a
non-null `data_base64` holding the base64 text of bytes `b` succeeds,
decodes the payload back to exactly `b`, and leaves no `data_base64`
entry in the instance dictionary, the extra store, or the attribute
map: data and data_base64 are never stored together. -/
theorem claim2_data_base64 (gen : Hooks) (t s : String) (b : List Nat)
    (hb : ∀ x ∈ b, x < 256) :
    ∃ e, CloudEvent.init gen
        (some [("type", Value.vstr t), ("source", Value.vstr s),
          ("data_base64", Value.vstr (String.mk (b64encode b)))])
        Value.null [] = Except.ok e ∧
      CloudEvent.get_data e = Value.vbytes b ∧
      dictLookup (CloudEvent.get_attributes e) "data_base64" = none ∧
      dictLookup e.dict "data_base64" = none ∧
      dictLookup e.extra "data_base64" = none := by
  have hdec : b64decode (b64encode b) = some b := b64_roundtrip b hb
  have hck : CloudEvent.check_base64_data_input
      [("data", Value.null), ("type", Value.vstr t), ("source", Value.vstr s),
       ("data_base64", Value.vstr (String.mk (b64encode b)))]
      = Except.ok [("data", Value.vbytes b), ("type", Value.vstr t),
        ("source", Value.vstr s)] := by
    rw [show CloudEvent.check_base64_data_input
        [("data", Value.null), ("type", Value.vstr t), ("source", Value.vstr s),
         ("data_base64", Value.vstr (String.mk (b64encode b)))]
        = (match b64decode (b64encode b) with
          | some bs => Except.ok (dictErase (dictSet
              [("data", Value.null), ("type", Value.vstr t),
               ("source", Value.vstr s),
               ("data_base64", Value.vstr (String.mk (b64encode b)))]
              "data" (Value.vbytes bs)) "data_base64")
          | none => Except.error VErr.b64Error) from rfl]
    rw [hdec]
    rfl
  have hmv : CloudEvent.modelValidate gen
      [("data", Value.null), ("type", Value.vstr t), ("source", Value.vstr s),
       ("data_base64", Value.vstr (String.mk (b64encode b)))]
      = Except.ok ⟨[("data", Value.vbytes b), ("source", Value.vstr s),
        ("id", Value.vstr gen.genId), ("type", Value.vstr t),
        ("specversion", Value.vstr DEFAULT_SPECVERSION),
        ("time", Value.vtime gen.genTime), ("subject", Value.null),
        ("datacontenttype", Value.null), ("dataschema", Value.null)], []⟩ := by
    unfold CloudEvent.modelValidate
    rw [hck]
    rfl
  refine ⟨⟨[("data", Value.vbytes b), ("source", Value.vstr s),
      ("id", Value.vstr gen.genId), ("type", Value.vstr t),
      ("specversion", Value.vstr DEFAULT_SPECVERSION),
      ("time", Value.vtime gen.genTime), ("subject", Value.null),
      ("datacontenttype", Value.null), ("dataschema", Value.null)], []⟩,
    ?_, rfl, rfl, rfl, rfl⟩
  rw [show CloudEvent.init gen
      (some [("type", Value.vstr t), ("source", Value.vstr s),
        ("data_base64", Value.vstr (String.mk (b64encode b)))])
      Value.null []
      = (match CloudEvent.modelValidate gen
          [("data", Value.null), ("type", Value.vstr t),
           ("source", Value.vstr s),
           ("data_base64", Value.vstr (String.mk (b64encode b)))] with
        | Except.ok e' => Except.ok e'
        | Except.error ve => Except.error (CEError.validation ve)) from rfl]
  rw [hmv]

/-- C2 witness: the bytes `xyz` round-trip through a concrete
construction from their base64 text. -/
theorem claim2_data_base64_witness :
    ∃ e, CloudEvent.init ⟨"u", "T"⟩
        (some [("type", Value.vstr "t"), ("source", Value.vstr "s"),
          ("data_base64", Value.vstr (String.mk (b64encode [120, 121, 122])))])
        Value.null [] = Except.ok e ∧
      CloudEvent.get_data e = Value.vbytes [120, 121, 122] ∧
      dictLookup (CloudEvent.get_attributes e) "data_base64" = none ∧
      dictLookup e.dict "data_base64" = none ∧
      dictLookup e.extra "data_base64" = none :=
  claim2_data_base64 ⟨"u", "T"⟩ "t" "s" [120, 121, 122] (by decide)

/-- C3: for every event, the pydantic json serialization hook produces
exactly the tree obtained by parsing the bytes of the shared canonical
structured-mode encoder, namely the dictionary of the structured-mode
members; the hook performs no independent field-by-field dumping. -/
theorem claim3_json_serializer_delegates (e : CloudEvent) :
    ce_json_dumps e = json_loads (to_json e) ∧
    ce_json_dumps e = some (dictOf (structuredMembers e)) :=
  ⟨rfl, ce_json_dumps_eq e⟩
